import Mathlib

/-!
Verification of the CSV multi-file combiner (`multi_file_combiner.py`).

The embedding below models the script's pipeline: candidate-file filtering of
the ZIP listing, the encoding trial loop, CSV parsing into a table of string
cells, timestamp-column detection and reordering, timestamp parsing with the
fixed format list, dropping of rows with unparsable timestamps, the meter
column rename, numeric coercion with NaN fill, record construction, and the
final combination (missing-meter column fill, sort by timestamp, duplicate
counting).

Modelling conventions:
  * Strings are Lean `String`s, but all operations are implemented over the
    underlying character lists with structural recursion so that concrete
    instances reduce inside the kernel.
  * Bytes are `Fin 256`.  `bytes.decode(encoding)` is modelled per codec;
    the cp1252 model keeps the latin1 glyphs for 0x80-0x9F (the real codec
    remaps them) because only decode success/failure is ever observed here.
  * Numbers are exact rationals.  `pd.to_numeric(errors='coerce')` on a string
    cell is modelled as a decimal/scientific parser returning `Option ℚ`
    (the float spellings inf/nan are not modelled).
  * `datetime.strptime` with the format `%A, %B %d, %Y %H:%M` is modelled with
    the single-space separators of the format string (the stdlib also accepts
    runs of whitespace); like the stdlib, the weekday name is not checked for
    consistency with the date, day/hour/minute accept one or two digits, and
    the day is validated against the month length.
  * `pandas` cells read with `dtype=str` are plain strings; an empty cell is
    the empty string.  Ragged CSV rows are a parse failure.
  * `DataFrame.sort_values` is modelled as a comparison sort by timestamp;
    pandas' default quicksort leaves the order of equal timestamps
    unspecified, and no statement below depends on the tie order.
  * The Python `set` of all meter names is modelled as a first-seen-ordered
    deduplicated list; only membership and the set of added columns are
    observable.
  * Column selection `df[cols]` is modelled positionally, which agrees with
    pandas whenever the header names are distinct.
-/

namespace MFC

/-! ## Characters and strings -/

/-- Lowercase every character, modelling Python `str.lower` (ASCII range). -/
def lowerChars (l : List Char) : List Char := l.map Char.toLower

/-- Uppercase every character, modelling Python `str.upper` (ASCII range). -/
def upperChars (l : List Char) : List Char := l.map Char.toUpper

/-- Does `l` start with `p`? -/
def listStartsWith : List Char → List Char → Bool
  | _, [] => true
  | [], _ :: _ => false
  | c :: t, p :: q => c == p && listStartsWith t q

/-- Does `p` occur as a contiguous substring of `l`?  Models Python `in`. -/
def listContainsSub (p : List Char) : List Char → Bool
  | [] => listStartsWith [] p
  | c :: t => listStartsWith (c :: t) p || listContainsSub p t

/-- Split on a single character, modelling `str.split(c)` / line splitting. -/
def splitOnChar (sep : Char) : List Char → List (List Char)
  | [] => [[]]
  | c :: t =>
    let r := splitOnChar sep t
    if c == sep then [] :: r
    else
      match r with
      | [] => [[c]]
      | h :: t2 => (c :: h) :: t2

/-- Fuel-driven worker for `splitOnSub`. -/
def splitOnSubFuel (sep : List Char) : Nat → List Char → List (List Char)
  | _, [] => [[]]
  | 0, l => [l]
  | fuel + 1, c :: t =>
    if listStartsWith (c :: t) sep && !sep.isEmpty then
      [] :: splitOnSubFuel sep fuel (t.drop (sep.length - 1))
    else
      match splitOnSubFuel sep fuel t with
      | [] => [[c]]
      | h :: t2 => (c :: h) :: t2

/-- Split on a substring separator, modelling `str.split(sep)`. -/
def splitOnSub (sep l : List Char) : List (List Char) :=
  splitOnSubFuel sep l.length l

/-- Fuel-driven worker for `replaceSub`. -/
def replaceFuel (pat repl : List Char) : Nat → List Char → List Char
  | _, [] => []
  | 0, l => l
  | fuel + 1, c :: t =>
    if listStartsWith (c :: t) pat && !pat.isEmpty then
      repl ++ replaceFuel pat repl fuel (t.drop (pat.length - 1))
    else
      c :: replaceFuel pat repl fuel t

/-- Replace every occurrence of `pat` by `repl`, modelling `str.replace`. -/
def replaceSub (pat repl l : List Char) : List Char :=
  replaceFuel pat repl l.length l

/-- Strip leading and trailing whitespace, modelling `str.strip`. -/
def trimChars (l : List Char) : List Char :=
  ((l.dropWhile Char.isWhitespace).reverse.dropWhile Char.isWhitespace).reverse

/-- Numeric value of a digit string (digits are validated by the callers). -/
def digitsVal (l : List Char) : Nat :=
  l.foldl (fun a c => a * 10 + (c.toNat - 48)) 0

/-- Substring test on `String`, modelling Python `pat in s`. -/
def strContains (s pat : String) : Bool := listContainsSub pat.data s.data

/-- Case-preserving suffix test on `String`, modelling `str.endswith`. -/
def strEndsWith (s suf : String) : Bool :=
  listStartsWith s.data.reverse suf.data.reverse

/-- Case-preserving prefix test on `String`, modelling `str.startswith`. -/
def strStartsWith (s p : String) : Bool := listStartsWith s.data p.data

/-- Lowercased copy of a string. -/
def strLower (s : String) : String := ⟨lowerChars s.data⟩

/-- Uppercased copy of a string. -/
def strUpper (s : String) : String := ⟨upperChars s.data⟩

/-! ## SourceLocator: the candidate filter over the ZIP listing -/

/-- Final path component, modelling `os.path.basename` for ZIP entry names. -/
def basename (f : String) : String := ⟨(splitOnChar '/' f.data).getLastD []⟩

/-- The candidate predicate of the ZIP listing comprehension: the lowercased
name ends in `.csv`, the uppercased name does not contain `MACOSX`, and the
base name does not start with a dot. -/
def isCandidate (f : String) : Bool :=
  strEndsWith (strLower f) ".csv"
    && !(strContains (strUpper f) "MACOSX")
    && !(strStartsWith (basename f) ".")

/-- The `csv_files` listing: entries of the container surviving the filter. -/
def csvFilesOf (entries : List (String × List (Fin 256))) :
    List (String × List (Fin 256)) :=
  entries.filter (fun e => isCandidate e.1)

/-! ## Timestamps -/

/-- A parsed timestamp: the `datetime` fields observable in the script. -/
structure DateTime where
  year : Nat
  month : Nat
  day : Nat
  hour : Nat
  minute : Nat
deriving DecidableEq

/-- Chronological sort key.  Injective on in-range field values. -/
def DateTime.key (t : DateTime) : Nat :=
  (((t.year * 13 + t.month) * 32 + t.day) * 24 + t.hour) * 60 + t.minute

/-- Full weekday names accepted by `%A` (matched case-insensitively). -/
def weekdayNames : List String :=
  ["monday", "tuesday", "wednesday", "thursday", "friday", "saturday",
   "sunday"]

/-- Full month names accepted by `%B` (matched case-insensitively). -/
def monthNames : List String :=
  ["january", "february", "march", "april", "may", "june", "july", "august",
   "september", "october", "november", "december"]

/-- Gregorian leap-year rule. -/
def isLeapYear (y : Nat) : Bool :=
  (y % 4 == 0 && y % 100 != 0) || (y % 400 == 0)

/-- Number of days in a month, as validated by the `datetime` constructor. -/
def daysInMonth (y m : Nat) : Nat :=
  if m == 2 then (if isLeapYear y then 29 else 28)
  else if m == 4 || m == 6 || m == 9 || m == 11 then 30
  else 31

/-- A one- or two-digit numeric field bounded by `mx`, as the `strptime`
patterns for `%d`, `%H` and `%M` accept. -/
def parse2Digit (l : List Char) (mx : Nat) : Option Nat :=
  if (l.length == 1 || l.length == 2) && l.all Char.isDigit then
    let n := digitsVal l
    if n ≤ mx then some n else none
  else none

/-- Exactly four digits, as the `strptime` pattern for `%Y` accepts. -/
def parse4DigitYear (l : List Char) : Option Nat :=
  if l.length == 4 && l.all Char.isDigit then some (digitsVal l) else none

/-- `datetime.strptime(s, "%A, %B %d, %Y %H:%M")`.  The weekday name is
parsed but not checked against the date, matching the stdlib. -/
def strptimeWeekdayFmt (s : String) : Option DateTime :=
  match splitOnSub ", ".data s.data with
  | [wd, md, yt] =>
    if weekdayNames.any (fun w => w.data == lowerChars wd) then
      match splitOnChar ' ' md with
      | [mon, dayS] =>
        match (monthNames.findIdx? (fun w => w.data == lowerChars mon)).map
            (· + 1) with
        | none => none
        | some m =>
          match parse2Digit dayS 31 with
          | none => none
          | some d =>
            match splitOnChar ' ' yt with
            | [yearS, hm] =>
              match parse4DigitYear yearS with
              | none => none
              | some y =>
                match splitOnChar ':' hm with
                | [hS, mS] =>
                  match parse2Digit hS 23, parse2Digit mS 59 with
                  | some hh, some mm =>
                    if 1 ≤ d && d ≤ daysInMonth y m then
                      some ⟨y, m, d, hh, mm⟩
                    else none
                  | _, _ => none
                | _ => none
            | _ => none
      | _ => none
    else none
  | _ => none

/-- A timestamp format: one pattern of the configured list. -/
abbrev TsFormat := String → Option DateTime

/-- The format list the parsing loop tries in order.  The script's fallback
`except` branch retries the very same format string, so the list has the
same pattern twice. -/
def timestampFormats : List TsFormat := [strptimeWeekdayFmt, strptimeWeekdayFmt]

/-- First-success-wins combinator: try each element in order and return the
first result.  This is the control flow of both the nested timestamp
`try/except` blocks and the encoding trial loop. -/
def firstSome {α β : Type} (f : α → Option β) : List α → Option β
  | [] => none
  | a :: as =>
    match f a with
    | some b => some b
    | none => firstSome f as

/-- The per-value timestamp parsing of the script: try the specific format,
and on `ValueError` try the (identical) fallback format. -/
def parseTimestamp (s : String) : Option DateTime :=
  match strptimeWeekdayFmt s with
  | some t => some t
  | none =>
    match strptimeWeekdayFmt s with
    | some t => some t
    | none => none

/-! ## Numeric coercion -/

/-- Mantissa of a decimal literal: sign, integer digits, fraction digits.
Both digit groups may be empty but not simultaneously. -/
def parseMantissa (l : List Char) : Option (Bool × List Char × List Char) :=
  let (neg, l1) :=
    match l with
    | '-' :: t => (true, t)
    | '+' :: t => (false, t)
    | t => (false, t)
  match splitOnChar '.' l1 with
  | [ip] =>
    if !ip.isEmpty && ip.all Char.isDigit then some (neg, ip, []) else none
  | [ip, fp] =>
    if ip.all Char.isDigit && fp.all Char.isDigit
        && !(ip.isEmpty && fp.isEmpty) then
      some (neg, ip, fp)
    else none
  | _ => none

/-- A signed integer exponent. -/
def parseSignedIntChars (l : List Char) : Option Int :=
  match l with
  | '-' :: t =>
    if !t.isEmpty && t.all Char.isDigit then some (-(digitsVal t : Int))
    else none
  | '+' :: t =>
    if !t.isEmpty && t.all Char.isDigit then some ((digitsVal t : Int))
    else none
  | t =>
    if !t.isEmpty && t.all Char.isDigit then some ((digitsVal t : Int))
    else none

/-- The rational `± m / 10^fracLen * 10^e`, built with a single `mkRat`. -/
def buildRat (neg : Bool) (m : Nat) (fracLen : Nat) (e : Int) : ℚ :=
  let sgnM : Int := if neg then -(m : Int) else (m : Int)
  match e - (fracLen : Int) with
  | Int.ofNat k => mkRat (sgnM * ((10 : Nat) ^ k : Nat)) 1
  | Int.negSucc k => mkRat sgnM ((10 : Nat) ^ (k + 1))

/-- `pd.to_numeric(cell, errors='coerce')` on one string cell: `some` value
for a decimal or scientific literal, `none` (NaN) otherwise. -/
def coerceCell (s : String) : Option ℚ :=
  let l := lowerChars (trimChars s.data)
  match splitOnChar 'e' l with
  | [m] =>
    (parseMantissa m).map
      (fun x => buildRat x.1 (digitsVal (x.2.1 ++ x.2.2)) x.2.2.length 0)
  | [m, ex] =>
    match parseMantissa m, parseSignedIntChars ex with
    | some x, some e =>
      some (buildRat x.1 (digitsVal (x.2.1 ++ x.2.2)) x.2.2.length e)
    | _, _ => none
  | _ => none

/-- The `fillna(0)` applied to every coerced meter column: the dtype check
`df[col].dtype in [np.float64, np.int64]` always holds after
`to_numeric(errors='coerce')`, so every NaN becomes the number 0. -/
def fillnaZero (c : Option ℚ) : ℚ := c.getD 0

/-! ## Tables and the per-file pipeline -/

/-- A table of string cells as read by `pd.read_csv(..., dtype=str)`. -/
structure RawTable where
  header : List String
  rows : List (List String)
deriving DecidableEq

/-- One stacked record, as appended to `all_data`: the parsed timestamp plus
the meter values of the row. -/
structure Record where
  ts : DateTime
  vals : List (String × ℚ)
deriving DecidableEq

/-- Does the lowercased column name contain the substring `timestamp`? -/
def isTimestampName (c : String) : Bool :=
  listContainsSub "timestamp".data (lowerChars c.data)

/-- Index of the first list element satisfying `p`: the timestamp-column
scan `for col in df.columns: if 'timestamp' in col.lower(): break`. -/
def findTsIdx (p : String → Bool) : List String → Option Nat
  | [] => none
  | c :: rest => if p c then some 0 else (findTsIdx p rest).map (· + 1)

/-- Move the element at position `i` to the front, keeping the relative
order of the rest: `cols.remove(timestamp_col); cols.insert(0, ...)`. -/
def moveToFront {α : Type} (l : List α) (i : Nat) : List α :=
  match l[i]? with
  | some x => x :: l.eraseIdx i
  | none => l

/-- The raw values of the timestamp column that fail to parse, in row order:
the `invalid_timestamps` list. -/
def invalidTsOf (rows : List (List String)) : List String :=
  (rows.map (fun r => r.headD "")).filter (fun c => (parseTimestamp c).isNone)

/-- Rows whose timestamp parses, paired with the parsed instant: the frame
after `df[df['Parsed_Timestamp'].notna()]`. -/
def keptRowsOf (rows : List (List String)) : List (DateTime × List String) :=
  rows.filterMap (fun r => (parseTimestamp (r.headD "")).map (fun t => (t, r)))

/-- Strip the meter-name suffix: `col.replace(" - Consumption Recorded
(MWh)", "")` (every occurrence, per `str.replace`). -/
def stripMeterSuffix (c : String) : String :=
  ⟨replaceSub " - Consumption Recorded (MWh)".data [] c.data⟩

/-- The column rename of the script: the new name list is
`['Parsed_Timestamp'] + [strip(c) for c in cols[1:-1]]`.  Assigning it to
`df.columns` requires the lengths to agree; pandas raises `Length mismatch`
otherwise, which the model signals with `none`. -/
def renameColumns (cols : List String) : Option (List String) :=
  let newCols := "Parsed_Timestamp" :: ((cols.drop 1).dropLast.map stripMeterSuffix)
  if newCols.length == cols.length then some newCols else none

/-- Reasons a file is skipped; each is surfaced as a `st.warning`. -/
inductive SkipReason where
  | decodeFailure
  | parseFailure
  | missingTimestampColumn
  | noValidTimestamps
  | processingError (msg : String)
deriving DecidableEq

/-- Data a successfully processed file contributes, plus its drop report. -/
structure FileData where
  meters : List String
  records : List Record
  droppedCount : Nat
  droppedExamples : List String
deriving DecidableEq

/-- Outcome of processing one candidate file. -/
inductive FileResult where
  | skipped (r : SkipReason)
  | ok (d : FileData)
deriving DecidableEq

/-- One record of `all_data` built from a kept row: the parsed timestamp and,
for each meter column, the coerced value with NaN filled by 0. -/
def recordOfRow (meters : List String) (t : DateTime) (row : List String) :
    Record :=
  ⟨t, meters.zip ((row.drop 1).map (fun s => fillnaZero (coerceCell s)))⟩

/-- The per-file pipeline after a table has been parsed: timestamp column
detection and reorder, timestamp parsing, dropping of invalid rows, the
column rename (which raises `Length mismatch` whenever the frame has at
least two columns, caught by the outer `except` as a processing error), and
record construction. -/
def processTable (t : RawTable) : FileResult :=
  match findTsIdx isTimestampName t.header with
  | none => .skipped .missingTimestampColumn
  | some i =>
    let header := moveToFront t.header i
    let rows := t.rows.map (fun r => moveToFront r i)
    let invalid := invalidTsOf rows
    let kept := keptRowsOf rows
    if kept.isEmpty then .skipped .noValidTimestamps
    else
      let header1 :=
        if header.contains "Parsed_Timestamp" then header
        else header ++ ["Parsed_Timestamp"]
      match renameColumns header1 with
      | none => .skipped (.processingError "Length mismatch")
      | some newCols =>
        let meters := newCols.drop 1
        .ok ⟨meters, kept.map (fun p => recordOfRow meters p.1 p.2),
          invalid.length, invalid.take 3⟩

/-! ## TableLoader: encodings and CSV parsing -/

/-- The encodings the loader tries, in order. -/
inductive Encoding where
  | utf8
  | latin1
  | cp1252
  | iso88591
deriving DecidableEq

/-- The configured encoding list `['utf-8', 'latin1', 'cp1252',
'iso-8859-1']`. -/
def encodingList : List Encoding :=
  [.utf8, .latin1, .cp1252, .iso88591]

/-- UTF-8 continuation byte. -/
def contByte (b : Fin 256) : Bool := 128 ≤ b.val && b.val ≤ 191

/-- Allowed second byte of a three-byte UTF-8 sequence. -/
def utf8Second3 (v : Nat) (c : Fin 256) : Bool :=
  if v == 224 then 160 ≤ c.val && c.val ≤ 191
  else if v == 237 then 128 ≤ c.val && c.val ≤ 159
  else contByte c

/-- Allowed second byte of a four-byte UTF-8 sequence. -/
def utf8Second4 (v : Nat) (c : Fin 256) : Bool :=
  if v == 240 then 144 ≤ c.val && c.val ≤ 191
  else if v == 244 then 128 ≤ c.val && c.val ≤ 143
  else contByte c

/-- Fuel-driven strict UTF-8 decoder (fuel is the list length). -/
def utf8DecodeFuel : Nat → List (Fin 256) → Option (List Char)
  | _, [] => some []
  | 0, _ :: _ => none
  | fuel + 1, b :: rest =>
    let v := b.val
    if v ≤ 127 then
      (utf8DecodeFuel fuel rest).map (fun cs => Char.ofNat v :: cs)
    else if 194 ≤ v && v ≤ 223 then
      match rest with
      | c :: r2 =>
        if contByte c then
          (utf8DecodeFuel fuel r2).map
            (fun cs => Char.ofNat ((v - 192) * 64 + (c.val - 128)) :: cs)
        else none
      | [] => none
    else if 224 ≤ v && v ≤ 239 then
      match rest with
      | c1 :: c2 :: r2 =>
        if utf8Second3 v c1 && contByte c2 then
          (utf8DecodeFuel fuel r2).map
            (fun cs =>
              Char.ofNat
                ((v - 224) * 4096 + (c1.val - 128) * 64 + (c2.val - 128)) :: cs)
        else none
      | _ => none
    else if 240 ≤ v && v ≤ 244 then
      match rest with
      | c1 :: c2 :: c3 :: r2 =>
        if utf8Second4 v c1 && contByte c2 && contByte c3 then
          (utf8DecodeFuel fuel r2).map
            (fun cs =>
              Char.ofNat
                ((v - 240) * 262144 + (c1.val - 128) * 4096
                  + (c2.val - 128) * 64 + (c3.val - 128)) :: cs)
        else none
      | _ => none
    else none

/-- Strict UTF-8 decoding of a byte string. -/
def utf8Decode (bs : List (Fin 256)) : Option (List Char) :=
  utf8DecodeFuel bs.length bs

/-- Latin-1 decoding: every byte maps to the code point of its value, so
decoding never fails. -/
def latin1Decode (bs : List (Fin 256)) : Option (List Char) :=
  some (bs.map (fun b => Char.ofNat b.val))

/-- Byte values undefined in cp1252. -/
def cp1252Undefined : List Nat := [129, 141, 143, 144, 157]

/-- cp1252 decoding: fails exactly on the five undefined byte values.  The
glyph remapping of 0x80-0x9F is not modelled; only success matters here. -/
def cp1252Decode (bs : List (Fin 256)) : Option (List Char) :=
  if bs.any (fun b => cp1252Undefined.contains b.val) then none
  else some (bs.map (fun b => Char.ofNat b.val))

/-- `bytes.decode(encoding)`.  Python's `iso-8859-1` is an alias of
`latin1`. -/
def decodeBytes : Encoding → List (Fin 256) → Option (List Char)
  | .utf8, bs => utf8Decode bs
  | .latin1, bs => latin1Decode bs
  | .cp1252, bs => cp1252Decode bs
  | .iso88591, bs => latin1Decode bs

/-- The encoding trial loop: the first encoding in the list that decodes the
bytes without a `UnicodeDecodeError` wins. -/
def decodeTrialWith (encs : List Encoding) (bs : List (Fin 256)) :
    Option (Encoding × List Char) :=
  firstSome (fun e => (decodeBytes e bs).map (fun cs => (e, cs))) encs

/-- Drop one trailing carriage return, for files with CRLF line endings. -/
def stripCR (l : List Char) : List Char :=
  match l.reverse with
  | '\r' :: t => t.reverse
  | _ => l

/-- Minimal model of `pd.read_csv` on decoded text: split lines, skip blank
lines, split fields on commas; an empty file or ragged rows are a parse
failure.  Quoting is not modelled (no claim exercises it). -/
def parseCsv (chars : List Char) : Option RawTable :=
  let lines := ((splitOnChar '\n' chars).map stripCR).filter
    (fun l => !l.isEmpty)
  match lines with
  | [] => none
  | h :: rest =>
    let header := (splitOnChar ',' h).map (fun l => (⟨l⟩ : String))
    let rows := rest.map
      (fun r => (splitOnChar ',' r).map (fun l => (⟨l⟩ : String)))
    if rows.all (fun r => r.length == header.length) then
      some ⟨header, rows⟩
    else none

/-- Process one container entry with a given encoding list: try encodings,
then parse, then run the per-file pipeline.  Only decode errors are caught
by the trial loop; a parse error is caught further out, as in the script. -/
def processEntryWith (encs : List Encoding) (e : String × List (Fin 256)) :
    FileResult :=
  match decodeTrialWith encs e.2 with
  | none => .skipped .decodeFailure
  | some (_, chars) =>
    match parseCsv chars with
    | none => .skipped .parseFailure
    | some t => processTable t

/-- Process one container entry with the configured encoding list. -/
def processEntry (e : String × List (Fin 256)) : FileResult :=
  processEntryWith encodingList e

/-- The warning a skipped entry produces, naming the file. -/
def entryWarningsWith (encs : List Encoding) (e : String × List (Fin 256)) :
    List (String × SkipReason) :=
  match processEntryWith encs e with
  | .skipped r => [(e.1, r)]
  | .ok _ => []

/-! ## MergeEngine: combining `all_data` -/

/-- Records a file result appends to `all_data` (nothing when skipped). -/
def fileContribution : FileResult → List Record
  | .ok d => d.records
  | .skipped _ => []

/-- Meter names a file result adds to `all_meters` (nothing when skipped). -/
def fileMeters : FileResult → List String
  | .ok d => d.meters
  | .skipped _ => []

/-- First-seen-order deduplication. -/
def dedupFS : List String → List String
  | [] => []
  | x :: xs => x :: (dedupFS xs).filter (fun y => y ≠ x)

/-- The union `all_meters` accumulated over the processed files, in
first-seen order (the script keeps a Python `set`; only membership is
observable). -/
def metersUnion (rs : List FileResult) : List String :=
  dedupFS (rs.flatMap fileMeters)

/-- Column order of `pd.DataFrame(all_data)`: keys in first-appearance
order, `Timestamp` first. -/
def frameColumns (data : List Record) : List String :=
  dedupFS (data.flatMap (fun r => "Timestamp" :: r.vals.map Prod.fst))

/-- The combined frame: its columns, the all-zero columns added for meters
missing from every record, and its rows. -/
structure MergedFrame where
  columns : List String
  addedZero : List String
  rows : List Record
deriving DecidableEq

/-- Comparison by timestamp used by `sort_values(by='Timestamp')`. -/
def recLE (a b : Record) : Prop := a.ts.key ≤ b.ts.key

instance : DecidableRel recLE :=
  fun a b => inferInstanceAs (Decidable (a.ts.key ≤ b.ts.key))

instance : IsTotal Record recLE := ⟨fun a b => Nat.le_total a.ts.key b.ts.key⟩

instance : IsTrans Record recLE := ⟨fun _ _ _ hab hbc => Nat.le_trans hab hbc⟩

/-- Count of rows whose timestamp already occurred earlier:
`combined_df.duplicated(subset=['Timestamp']).sum()`.  The script only warns
with this count and keeps every row. -/
def dupCountAux (seen : List DateTime) : List Record → Nat
  | [] => 0
  | r :: rest =>
    (if seen.contains r.ts then 1 else 0) + dupCountAux (r.ts :: seen) rest

/-- Duplicate-timestamp count of a row list. -/
def duplicateCount (rows : List Record) : Nat := dupCountAux [] rows

/-- The combination step, lines 160-174 of the script: build the frame from
`all_data`, add an all-zero column for every meter of `all_meters` missing
from the frame, and sort by timestamp.  Duplicate timestamps are counted for
a warning but every row is kept. -/
def mergeRecords (data : List Record) (meters : List String) : MergedFrame :=
  let cols := frameColumns data
  let added := meters.filter (fun m => !(cols.contains m))
  ⟨cols ++ added, added, List.insertionSort recLE data⟩

/-- Cell of the combined frame at row `i`, column `c`: `some 0` in an added
all-zero column, the record's value for a meter the record reports, and
`none` (NaN) otherwise. -/
def MergedFrame.cell (f : MergedFrame) (i : Nat) (c : String) : Option ℚ :=
  match f.rows[i]? with
  | none => none
  | some r => if f.addedZero.contains c then some 0 else r.vals.lookup c

/-! ## The whole run -/

/-- Outcome of a run on a container listing. -/
inductive RunResult where
  | noCandidateFiles
  | noValidFiles
  | artifact (f : MergedFrame)
deriving DecidableEq

/-- The batch: filter the listing; with no candidates fail with the
no-candidate error; process every candidate in order; with an empty
`all_data` fail with the no-valid-files error; otherwise combine. -/
def runBatch (entries : List (String × List (Fin 256))) : RunResult :=
  let csvs := csvFilesOf entries
  if csvs.isEmpty then .noCandidateFiles
  else
    let results := csvs.map processEntry
    let data := results.flatMap fileContribution
    if data.isEmpty then .noValidFiles
    else .artifact (mergeRecords data (metersUnion results))

end MFC

namespace MFC

/-! ## General lemmas about the first-success combinator -/

/-- If every element of the first block fails and `p` succeeds, the
first-success combinator returns the value of `p`, wherever `p` sits. -/
theorem firstSome_append_first {α β : Type} (f : α → Option β) (l1 l2 : List α)
    (p : α) (b : β) (h1 : ∀ x ∈ l1, f x = none) (hp : f p = some b) :
    firstSome f (l1 ++ p :: l2) = some b := by
  induction l1 with
  | nil => simp [firstSome, hp]
  | cons a t ih =>
    have ha : f a = none := h1 a (by simp)
    simp only [List.cons_append, firstSome, ha]
    exact ih (fun x hx => h1 x (by simp [hx]))

/-- The combinator returns `none` exactly when every element fails. -/
theorem firstSome_eq_none_iff {α β : Type} (f : α → Option β) (l : List α) :
    firstSome f l = none ↔ ∀ x ∈ l, f x = none := by
  induction l with
  | nil => simp [firstSome]
  | cons a t ih =>
    cases ha : f a with
    | none => simp [firstSome, ha, ih]
    | some b =>
      simp only [firstSome, ha]
      constructor
      · intro h; cases h
      · intro h
        have := h a (by simp)
        rw [ha] at this
        cases this

/-! ## Lemmas about the timestamp-column scan -/

/-- Specification of `findTsIdx`: the returned index is in range, satisfies
the predicate, and is minimal. -/
theorem findTsIdx_spec (p : String → Bool) (l : List String) (i : Nat)
    (h : findTsIdx p l = some i) :
    i < l.length ∧ p (l.getD i "") = true
      ∧ ∀ j, j < i → p (l.getD j "") = false := by
  induction l generalizing i with
  | nil => cases h
  | cons c rest ih =>
    by_cases hc : p c = true
    · simp only [findTsIdx, hc, if_true, Option.some_inj] at h
      subst h
      exact ⟨by simp, by simpa using hc,
        fun j hj => absurd hj (Nat.not_lt_zero j)⟩
    · simp only [findTsIdx] at h
      rw [if_neg hc] at h
      cases hrest : findTsIdx p rest with
      | none => rw [hrest] at h; cases h
      | some i2 =>
      rw [hrest] at h
      simp only [Option.map_some'] at h
      injection h with h2
      subst h2
      obtain ⟨hlen, hp, hmin⟩ := ih i2 hrest
      refine ⟨by simpa using Nat.succ_lt_succ hlen, by simpa using hp, ?_⟩
      intro j hj
      cases j with
      | zero => simpa using Bool.of_not_eq_true hc
      | succ k => simpa using hmin k (Nat.lt_of_succ_lt_succ hj)

/-- For an in-range index, moving to the front is consing the selected
element onto the remainder. -/
theorem moveToFront_eq (l : List String) (i : Nat) (h : i < l.length) :
    moveToFront l i = l.getD i "" :: l.eraseIdx i := by
  unfold moveToFront
  rw [List.getElem?_eq_getElem h]
  simp [List.getD_eq_getElem?_getD, List.getElem?_eq_getElem h]

/-- The per-file pipeline never reports a decode or parse skip: those arise
before a table exists. -/
theorem processTable_not_load_skip (t : RawTable) :
    processTable t ≠ .skipped .decodeFailure
      ∧ processTable t ≠ .skipped .parseFailure := by
  constructor <;>
    · unfold processTable
      split
      · simp
      · dsimp only
        split
        · simp
        · split <;> simp

/-! ## Claim C1 -/

/-- Counterexample to claim C1: the claim says a raw value failing numeric
coercion becomes a missing marker (not a number) and is never conflated with
a true zero.  In the code, `"abc"` fails coercion (NaN) and `fillna(0)` then
turns it into the number 0, identical to a true `"0"` cell, and the merged
output holds `0` for it. -/
theorem coercion_conflates_missing_and_zero :
    coerceCell "abc" = none
      ∧ recordOfRow ["M1"] ⟨2025, 1, 2, 2, 30⟩ ["x", "abc"]
          = recordOfRow ["M1"] ⟨2025, 1, 2, 2, 30⟩ ["x", "0"]
      ∧ (mergeRecords [recordOfRow ["M1"] ⟨2025, 1, 2, 2, 30⟩ ["x", "abc"]]
          ["M1"]).cell 0 "M1" = some 0 := by decide

/-- Claim C1 as amended: a raw value that fails numeric coercion becomes the
number 0 in the merged output (never an error), a raw value that coerces is
kept exactly, a raw `"0"` is preserved as 0, and a meter column absent from
the frame is filled with 0.  Missing is therefore conflated with zero in the
missing-to-zero direction, while a true zero is never turned into missing. -/
theorem coercion_failure_becomes_zero (s : String) (q : ℚ) (data : List Record)
    (meters : List String) (c : String) (i : Nat) (r : Record) :
    (coerceCell s = none → fillnaZero (coerceCell s) = 0)
      ∧ (coerceCell s = some q → fillnaZero (coerceCell s) = q)
      ∧ coerceCell "0" = some 0
      ∧ ((mergeRecords data meters).addedZero.contains c = true →
          (mergeRecords data meters).rows[i]? = some r →
          (mergeRecords data meters).cell i c = some 0) := by
  refine ⟨fun h => by rw [h]; rfl, fun h => by rw [h]; rfl, by decide,
    fun h1 h2 => ?_⟩
  unfold MergedFrame.cell
  rw [h2]
  dsimp only
  rw [if_pos h1]

/-- Witness for the amended claim C1 at concrete inputs. -/
theorem coercion_failure_becomes_zero_witness :
    fillnaZero (coerceCell "abc") = 0
      ∧ fillnaZero (coerceCell "7.5") = mkRat 75 10
      ∧ (mergeRecords [⟨⟨2025, 1, 2, 2, 30⟩, [("M1", 5)]⟩]
          ["M1", "M2"]).cell 0 "M2" = some 0 := by
  have h1 := coercion_failure_becomes_zero "abc" 0 [] [] "" 0
    ⟨⟨2025, 1, 2, 2, 30⟩, []⟩
  have h2 := coercion_failure_becomes_zero "7.5" (mkRat 75 10)
    [⟨⟨2025, 1, 2, 2, 30⟩, [("M1", 5)]⟩] ["M1", "M2"] "M2" 0
    ⟨⟨2025, 1, 2, 2, 30⟩, [("M1", 5)]⟩
  exact ⟨h1.1 (by decide), h2.2.1 (by decide), h2.2.2.2 (by decide) (by decide)⟩

/-! ## Claim C2 -/

/-- Counterexample to claim C2: merging two one-row files that share the same
instant yields 2 rows, not (1 + 1 − 1) = 1; both rows at the shared instant
survive (no last-write-wins), and the code merely counts 1 duplicate for a
warning. -/
theorem merge_keeps_both_rows_at_shared_instant :
    (mergeRecords [⟨⟨2025, 1, 2, 2, 30⟩, [("M1", 5)]⟩,
        ⟨⟨2025, 1, 2, 2, 30⟩, [("M1", 7)]⟩] ["M1"]).rows.length = 2
      ∧ ((mergeRecords [⟨⟨2025, 1, 2, 2, 30⟩, [("M1", 5)]⟩,
          ⟨⟨2025, 1, 2, 2, 30⟩, [("M1", 7)]⟩] ["M1"]).rows.filter
            (fun r => r.ts = ⟨2025, 1, 2, 2, 30⟩)).length = 2
      ∧ duplicateCount (mergeRecords [⟨⟨2025, 1, 2, 2, 30⟩, [("M1", 5)]⟩,
          ⟨⟨2025, 1, 2, 2, 30⟩, [("M1", 7)]⟩] ["M1"]).rows = 1 := by decide

/-- Claim C2 as amended: the merged table is sorted ascending by instant, but
duplicate instants are all kept (the code only warns), so the output always
has exactly as many rows as `all_data`, i.e. file1 rows + file2 rows. -/
theorem merge_sorts_and_keeps_all_rows (data : List Record)
    (meters : List String) :
    (mergeRecords data meters).rows.length = data.length
      ∧ List.Sorted recLE (mergeRecords data meters).rows
      ∧ (mergeRecords data meters).rows.Perm data := by
  refine ⟨(List.perm_insertionSort recLE data).length_eq, ?_, ?_⟩
  · exact List.sorted_insertionSort recLE data
  · exact List.perm_insertionSort recLE data

/-- Witness for the amended claim C2 at concrete inputs. -/
theorem merge_sorts_and_keeps_all_rows_witness :
    (mergeRecords [⟨⟨2025, 1, 2, 2, 30⟩, [("M1", 5)]⟩,
        ⟨⟨2025, 1, 2, 0, 0⟩, [("M1", 7)]⟩] ["M1"]).rows.length = 2
      ∧ List.Sorted recLE (mergeRecords [⟨⟨2025, 1, 2, 2, 30⟩, [("M1", 5)]⟩,
          ⟨⟨2025, 1, 2, 0, 0⟩, [("M1", 7)]⟩] ["M1"]).rows
      ∧ (mergeRecords [⟨⟨2025, 1, 2, 2, 30⟩, [("M1", 5)]⟩,
          ⟨⟨2025, 1, 2, 0, 0⟩, [("M1", 7)]⟩] ["M1"]).rows.Perm
          [⟨⟨2025, 1, 2, 2, 30⟩, [("M1", 5)]⟩,
            ⟨⟨2025, 1, 2, 0, 0⟩, [("M1", 7)]⟩] :=
  merge_sorts_and_keeps_all_rows
    [⟨⟨2025, 1, 2, 2, 30⟩, [("M1", 5)]⟩, ⟨⟨2025, 1, 2, 0, 0⟩, [("M1", 7)]⟩]
    ["M1"]

/-! ## Claim C3 -/

/-- Counterexample to claim C3: two files with disjoint meters and the same
3 timestamps merge into 6 rows, not 3, and every row is missing one of the
two meters, contradicting claimed row count and absence of missing values
(the column count 3 does hold). -/
theorem merge_align_scenario_yields_six_rows :
    (mergeRecords [⟨⟨2025, 1, 2, 0, 0⟩, [("M1", 1)]⟩,
        ⟨⟨2025, 1, 2, 0, 30⟩, [("M1", 2)]⟩, ⟨⟨2025, 1, 2, 1, 0⟩, [("M1", 3)]⟩,
        ⟨⟨2025, 1, 2, 0, 0⟩, [("M2", 4)]⟩, ⟨⟨2025, 1, 2, 0, 30⟩, [("M2", 5)]⟩,
        ⟨⟨2025, 1, 2, 1, 0⟩, [("M2", 6)]⟩] ["M1", "M2"]).rows.length = 6
      ∧ (mergeRecords [⟨⟨2025, 1, 2, 0, 0⟩, [("M1", 1)]⟩,
          ⟨⟨2025, 1, 2, 0, 30⟩, [("M1", 2)]⟩, ⟨⟨2025, 1, 2, 1, 0⟩, [("M1", 3)]⟩,
          ⟨⟨2025, 1, 2, 0, 0⟩, [("M2", 4)]⟩, ⟨⟨2025, 1, 2, 0, 30⟩, [("M2", 5)]⟩,
          ⟨⟨2025, 1, 2, 1, 0⟩, [("M2", 6)]⟩] ["M1", "M2"]).columns
          = ["Timestamp", "M1", "M2"]
      ∧ ((mergeRecords [⟨⟨2025, 1, 2, 0, 0⟩, [("M1", 1)]⟩,
          ⟨⟨2025, 1, 2, 0, 30⟩, [("M1", 2)]⟩, ⟨⟨2025, 1, 2, 1, 0⟩, [("M1", 3)]⟩,
          ⟨⟨2025, 1, 2, 0, 0⟩, [("M2", 4)]⟩, ⟨⟨2025, 1, 2, 0, 30⟩, [("M2", 5)]⟩,
          ⟨⟨2025, 1, 2, 1, 0⟩, [("M2", 6)]⟩] ["M1", "M2"]).rows.all
            (fun r => !((r.vals.lookup "M1").isSome
              && (r.vals.lookup "M2").isSome))) = true := by decide

/-- Claim C3 as amended: the code has no align-on-timestamp join; it stacks
each file's rows, so two files with disjoint meter sets and the same 3
timestamps merge into 6 rows and 3 columns, each row lacking the meter of
the other file. -/
theorem merge_stacks_rows_not_aligned (t1 t2 t3 : DateTime)
    (a1 a2 a3 b1 b2 b3 : ℚ) :
    (mergeRecords [⟨t1, [("M1", a1)]⟩, ⟨t2, [("M1", a2)]⟩, ⟨t3, [("M1", a3)]⟩,
        ⟨t1, [("M2", b1)]⟩, ⟨t2, [("M2", b2)]⟩, ⟨t3, [("M2", b3)]⟩]
        ["M1", "M2"]).rows.length = 6
      ∧ (mergeRecords [⟨t1, [("M1", a1)]⟩, ⟨t2, [("M1", a2)]⟩,
          ⟨t3, [("M1", a3)]⟩, ⟨t1, [("M2", b1)]⟩, ⟨t2, [("M2", b2)]⟩,
          ⟨t3, [("M2", b3)]⟩] ["M1", "M2"]).columns = ["Timestamp", "M1", "M2"]
      ∧ ∀ r ∈ (mergeRecords [⟨t1, [("M1", a1)]⟩, ⟨t2, [("M1", a2)]⟩,
          ⟨t3, [("M1", a3)]⟩, ⟨t1, [("M2", b1)]⟩, ⟨t2, [("M2", b2)]⟩,
          ⟨t3, [("M2", b3)]⟩] ["M1", "M2"]).rows,
          r.vals.lookup "M2" = none ∨ r.vals.lookup "M1" = none := by
  refine ⟨(List.perm_insertionSort recLE _).length_eq, rfl, ?_⟩
  intro r hr
  have hmem : r ∈ [⟨t1, [("M1", a1)]⟩, ⟨t2, [("M1", a2)]⟩, ⟨t3, [("M1", a3)]⟩,
      ⟨t1, [("M2", b1)]⟩, ⟨t2, [("M2", b2)]⟩, ⟨t3, [("M2", b3)]⟩] :=
    (List.perm_insertionSort recLE _).subset hr
  simp only [List.mem_cons, List.not_mem_nil, or_false] at hmem
  rcases hmem with rfl | rfl | rfl | rfl | rfl | rfl
  · exact Or.inl rfl
  · exact Or.inl rfl
  · exact Or.inl rfl
  · exact Or.inr rfl
  · exact Or.inr rfl
  · exact Or.inr rfl

/-- Witness for the amended claim C3 at concrete inputs. -/
theorem merge_stacks_rows_not_aligned_witness :
    (mergeRecords [⟨⟨2025, 1, 2, 0, 0⟩, [("M1", 1)]⟩,
        ⟨⟨2025, 1, 2, 0, 30⟩, [("M1", 2)]⟩, ⟨⟨2025, 1, 2, 1, 0⟩, [("M1", 3)]⟩,
        ⟨⟨2025, 1, 2, 0, 0⟩, [("M2", 4)]⟩, ⟨⟨2025, 1, 2, 0, 30⟩, [("M2", 5)]⟩,
        ⟨⟨2025, 1, 2, 1, 0⟩, [("M2", 6)]⟩] ["M1", "M2"]).rows.length = 6
      ∧ (mergeRecords [⟨⟨2025, 1, 2, 0, 0⟩, [("M1", 1)]⟩,
          ⟨⟨2025, 1, 2, 0, 30⟩, [("M1", 2)]⟩, ⟨⟨2025, 1, 2, 1, 0⟩, [("M1", 3)]⟩,
          ⟨⟨2025, 1, 2, 0, 0⟩, [("M2", 4)]⟩, ⟨⟨2025, 1, 2, 0, 30⟩, [("M2", 5)]⟩,
          ⟨⟨2025, 1, 2, 1, 0⟩, [("M2", 6)]⟩] ["M1", "M2"]).columns
          = ["Timestamp", "M1", "M2"]
      ∧ ∀ r ∈ (mergeRecords [⟨⟨2025, 1, 2, 0, 0⟩, [("M1", 1)]⟩,
          ⟨⟨2025, 1, 2, 0, 30⟩, [("M1", 2)]⟩, ⟨⟨2025, 1, 2, 1, 0⟩, [("M1", 3)]⟩,
          ⟨⟨2025, 1, 2, 0, 0⟩, [("M2", 4)]⟩, ⟨⟨2025, 1, 2, 0, 30⟩, [("M2", 5)]⟩,
          ⟨⟨2025, 1, 2, 1, 0⟩, [("M2", 6)]⟩] ["M1", "M2"]).rows,
          r.vals.lookup "M2" = none ∨ r.vals.lookup "M1" = none :=
  merge_stacks_rows_not_aligned ⟨2025, 1, 2, 0, 0⟩ ⟨2025, 1, 2, 0, 30⟩
    ⟨2025, 1, 2, 1, 0⟩ 1 2 3 4 5 6

end MFC

namespace MFC

/-! ## Claim C4 -/

/-- Claim C4 names the code bug: the suffix strip itself is right
(`stripMeterSuffix` yields `M1`), but the assigned name list
`['Parsed_Timestamp'] + stripped(cols[1:-1])` is one element shorter than
the frame, which still holds both the original timestamp column and
`Parsed_Timestamp`.  pandas raises `Length mismatch`, the generic handler
skips the file, and so no file with a meter column is ever renamed or
merged. -/
theorem rename_length_mismatch_skips_file :
    stripMeterSuffix "M1 - Consumption Recorded (MWh)" = "M1"
      ∧ renameColumns ["Timestamp", "M1 - Consumption Recorded (MWh)",
          "Parsed_Timestamp"] = none
      ∧ processTable ⟨["Timestamp", "M1 - Consumption Recorded (MWh)"],
          [["Thursday, January 02, 2025 02:30", "5"]]⟩
        = .skipped (.processingError "Length mismatch") := by decide

/-! ## Claim C5 -/

/-- Claim C5, confirmed: the per-value timestamp parse is exactly the
first-success trial of the configured format list (the script's fallback
branch retries the identical format, so the list holds it twice); a format
that is the first to match determines the result wherever it sits in the
list; and a value is unparsable exactly when every format fails. -/
theorem timestamp_formats_first_match_wins (s : String)
    (l l1 l2 : List TsFormat) (p : TsFormat) (t : DateTime) :
    parseTimestamp s = firstSome (fun f => f s) timestampFormats
      ∧ ((∀ g ∈ l1, g s = none) → p s = some t →
          firstSome (fun f => f s) (l1 ++ p :: l2) = some t)
      ∧ (firstSome (fun f => f s) l = none ↔ ∀ g ∈ l, g s = none) := by
  refine ⟨?_, fun h1 hp => firstSome_append_first _ l1 l2 p t h1 hp,
    firstSome_eq_none_iff _ l⟩
  cases h : strptimeWeekdayFmt s <;>
    simp [parseTimestamp, timestampFormats, firstSome, h]

/-- Witness for claim C5 at a concrete timestamp string. -/
theorem timestamp_formats_first_match_wins_witness :
    parseTimestamp "Thursday, January 2, 2025 2:30" = some ⟨2025, 1, 2, 2, 30⟩
      ∧ firstSome (fun f => f "Thursday, January 2, 2025 2:30")
          ([] ++ strptimeWeekdayFmt :: []) = some ⟨2025, 1, 2, 2, 30⟩ := by
  have h := timestamp_formats_first_match_wins
    "Thursday, January 2, 2025 2:30" [] [] [] strptimeWeekdayFmt
    ⟨2025, 1, 2, 2, 30⟩
  refine ⟨?_, h.2.1 (by simp) (by decide)⟩
  rw [h.1]
  decide

/-! ## Claim C6 -/

/-- Rows of a 10-row file whose timestamp column has exactly one malformed
value among 10. -/
def tenRowsOneMalformed : List (List String) := [
  ["Thursday, January 02, 2025 00:00", "1"],
  ["Thursday, January 02, 2025 00:30", "2"],
  ["Thursday, January 02, 2025 01:00", "3"],
  ["not a date", "4"],
  ["Thursday, January 02, 2025 02:00", "5"],
  ["Thursday, January 02, 2025 02:30", "6"],
  ["Thursday, January 02, 2025 03:00", "7"],
  ["Thursday, January 02, 2025 03:30", "8"],
  ["Thursday, January 02, 2025 04:00", "9"],
  ["Thursday, January 02, 2025 04:30", "10"]]

/-- Claim C6 names the code bug: for a 10-row file with one malformed
timestamp the drop stage behaves exactly as described (9 rows kept, the
dropped value reported, at most 3 examples, and a file losing all rows is
skipped as empty rather than failing), but the file then hits the column
rename length mismatch and is skipped, so it contributes 0 rows to the
merge instead of 9. -/
theorem invalid_timestamp_dropped_then_file_errors :
    (keptRowsOf tenRowsOneMalformed).length = 9
      ∧ invalidTsOf tenRowsOneMalformed = ["not a date"]
      ∧ (invalidTsOf tenRowsOneMalformed).take 3 = ["not a date"]
      ∧ processTable ⟨["Timestamp", "M1 - Consumption Recorded (MWh)"],
          tenRowsOneMalformed⟩
          = .skipped (.processingError "Length mismatch")
      ∧ processTable ⟨["Timestamp", "M1 - Consumption Recorded (MWh)"],
          [["not a date", "4"]]⟩ = .skipped .noValidTimestamps := by decide

/-! ## Claim C7 -/

/-- Claim C7, confirmed: when some column name case-insensitively contains
`timestamp`, the scan returns the first such column (in range, matching,
minimal), the reorder places it at position 0 and keeps the remaining
columns in their relative order (the remainder is a sublist of the
original header); when no column matches, the file is skipped with the
missing-timestamp-column warning. -/
theorem timestamp_column_moved_to_front (header : List String) (i : Nat)
    (t : RawTable) :
    (findTsIdx isTimestampName header = some i →
        i < header.length
          ∧ isTimestampName (header.getD i "") = true
          ∧ (∀ j, j < i → isTimestampName (header.getD j "") = false)
          ∧ moveToFront header i = header.getD i "" :: header.eraseIdx i
          ∧ (header.eraseIdx i).Sublist header)
      ∧ (findTsIdx isTimestampName t.header = none →
          processTable t = .skipped .missingTimestampColumn) := by
  constructor
  · intro h
    obtain ⟨hlen, hp, hmin⟩ := findTsIdx_spec _ _ _ h
    exact ⟨hlen, hp, hmin, moveToFront_eq _ _ hlen,
      List.eraseIdx_sublist _ _⟩
  · intro h
    simp [processTable, h]

/-- Witness for claim C7 at a concrete header and a concrete table with no
timestamp column. -/
theorem timestamp_column_moved_to_front_witness :
    moveToFront ["M1", "My Timestamp"] 1 = ["My Timestamp", "M1"]
      ∧ processTable ⟨["A", "B"], []⟩ = .skipped .missingTimestampColumn := by
  have h := timestamp_column_moved_to_front ["M1", "My Timestamp"] 1
    ⟨["A", "B"], []⟩
  have h1 := (h.1 (by decide)).2.2.2.1
  exact ⟨by rw [h1]; decide, h.2 (by decide)⟩

/-! ## Claim C8 -/

/-- Claim C8, confirmed: the loader tries the encodings in list order and the
first one that decodes without error wins; when every encoding fails the
entry is skipped with a decode failure and a warning naming the file; the
configured list is `encodingList`; and a skipped file contributes nothing
while the surrounding batch contributions are untouched. -/
theorem encoding_trial_first_success_wins (encs l1 l2 : List Encoding)
    (en : Encoding) (bs : List (Fin 256)) (cs : List Char) (name : String)
    (rs1 rs2 : List FileResult) :
    ((∀ x ∈ l1, decodeBytes x bs = none) → decodeBytes en bs = some cs →
        decodeTrialWith (l1 ++ en :: l2) bs = some (en, cs))
      ∧ (decodeTrialWith encs bs = none →
          processEntryWith encs (name, bs) = .skipped .decodeFailure
            ∧ entryWarningsWith encs (name, bs) = [(name, .decodeFailure)])
      ∧ processEntry (name, bs) = processEntryWith encodingList (name, bs)
      ∧ (rs1 ++ FileResult.skipped .decodeFailure :: rs2).flatMap
            fileContribution
          = rs1.flatMap fileContribution ++ rs2.flatMap fileContribution := by
  refine ⟨fun h1 hp => ?_, fun h => ?_, rfl, ?_⟩
  · exact firstSome_append_first _ l1 l2 en (en, cs)
      (fun x hx => by simp [h1 x hx]) (by simp [hp])
  · exact ⟨by simp [processEntryWith, h],
      by simp [entryWarningsWith, processEntryWith, h]⟩
  · simp [fileContribution]

/-- Witness for claim C8: a trial where utf-8, first in the list, decodes a
plain ASCII byte, and a trial with the list cut to utf-8 alone failing on
the byte 0xFF. -/
theorem encoding_trial_first_success_wins_witness :
    decodeTrialWith ([] ++ Encoding.utf8 :: [Encoding.latin1]) [65]
        = some (Encoding.utf8, ['A'])
      ∧ processEntryWith [Encoding.utf8] ("a.csv", [255])
          = .skipped .decodeFailure := by
  have h1 := encoding_trial_first_success_wins [] [] [Encoding.latin1]
    Encoding.utf8 [65] ['A'] "a.csv" [] []
  have h2 := encoding_trial_first_success_wins [Encoding.utf8] [] []
    Encoding.utf8 [255] [] "a.csv" [] []
  exact ⟨h1.1 (by simp) (by decide), (h2.2.1 (by decide)).1⟩

/-! ## Claim C9 -/

/-- Claim C9, confirmed: a listing entry is a candidate exactly when its
lowercased name ends in the data extension, its uppercased name avoids the
platform-metadata marker, and its base name does not start with the hidden
marker; a container whose entries all fail the filter makes the run fail
with the no-candidate-files error and produce no artifact. -/
theorem candidate_filter_contract (f : String)
    (entries : List (String × List (Fin 256))) :
    (isCandidate f = true ↔
        (strEndsWith (strLower f) ".csv" = true
          ∧ strContains (strUpper f) "MACOSX" = false
          ∧ strStartsWith (basename f) "." = false))
      ∧ ((∀ e ∈ entries, isCandidate e.1 = false) →
          runBatch entries = .noCandidateFiles
            ∧ ∀ fr, runBatch entries ≠ .artifact fr) := by
  constructor
  · simp [isCandidate, Bool.and_eq_true, Bool.not_eq_true', and_assoc]
  · intro h
    have hnil : csvFilesOf entries = [] := by
      simp only [csvFilesOf, List.filter_eq_nil_iff]
      intro e he
      simp [h e he]
    have hrun : runBatch entries = .noCandidateFiles := by
      simp [runBatch, hnil]
    refine ⟨hrun, fun fr h2 => ?_⟩
    rw [hrun] at h2
    cases h2

/-- Witness for claim C9: a container holding only a macOS metadata entry, a
hidden file and a non-CSV file yields the no-candidate-files failure. -/
theorem candidate_filter_contract_witness :
    runBatch [("__MACOSX/._a.csv", []), (".hidden.csv", []),
        ("readme.txt", [])] = .noCandidateFiles := by
  have h := candidate_filter_contract "x"
    [("__MACOSX/._a.csv", []), (".hidden.csv", []), ("readme.txt", [])]
  exact (h.2 (by decide)).1

/-! ## Claim C10 -/

/-- Claim C10, confirmed: latin1, second in the configured list, decodes any
byte string (each byte maps to its code point), so the encoding trial always
succeeds and the all-encodings-failed skip is unreachable: every candidate
file reaches the parsing stage. -/
theorem latin1_decode_never_fails (bs : List (Fin 256)) (name : String) :
    decodeBytes Encoding.latin1 bs = some (bs.map (fun b => Char.ofNat b.val))
      ∧ (decodeTrialWith encodingList bs).isSome = true
      ∧ processEntry (name, bs) ≠ .skipped .decodeFailure := by
  have hsome : (decodeTrialWith encodingList bs).isSome = true := by
    cases h : utf8Decode bs with
    | none =>
      simp [decodeTrialWith, encodingList, firstSome, decodeBytes, h,
        latin1Decode]
    | some cs =>
      simp [decodeTrialWith, encodingList, firstSome, decodeBytes, h]
  refine ⟨rfl, hsome, ?_⟩
  intro hc
  obtain ⟨v, hv⟩ := Option.isSome_iff_exists.mp hsome
  obtain ⟨enc, chars⟩ := v
  simp only [processEntry, processEntryWith] at hc
  rw [hv] at hc
  dsimp only at hc
  cases hp : parseCsv chars with
  | none =>
    rw [hp] at hc
    exact absurd hc (by decide)
  | some tb =>
    rw [hp] at hc
    exact (processTable_not_load_skip tb).1 hc

/-- Witness for claim C10 at the byte 0xFF, which utf-8 rejects. -/
theorem latin1_decode_never_fails_witness :
    decodeBytes Encoding.latin1 ([255] : List (Fin 256))
        = some (([255] : List (Fin 256)).map (fun b => Char.ofNat b.val))
      ∧ (decodeTrialWith encodingList ([255] : List (Fin 256))).isSome = true
      ∧ processEntry ("a.csv", ([255] : List (Fin 256)))
          ≠ .skipped .decodeFailure :=
  latin1_decode_never_fails [255] "a.csv"

end MFC
